import Mathlib

/-!
Verification of the oomd decision core against its specification.

The repository ships the GTest suite `OomdTest.cpp`; the implementation units
it exercises (`Oomd::updateContext`, `OomdContext`, the protection-overage
calculator and the cgroup fixture directories) are not part of the source
tree available here.  Those parts are therefore modelled from the
specification, with the observable behaviour pinned by the expectations of
the test suite (store sizes, membership, ordering and exact overage values).

Conventions of the embedding:
  * byte counts read from the hierarchy are natural numbers;
  * the smoothed average and the overage computation are carried out in `ℚ`,
    matching the real-valued formulas of the specification;
  * the store is an association list keyed by resolved cgroup paths;
  * fallible operations return an error component instead of throwing.
-/

/-- Identifier of a resource group: a hierarchy root plus a relative path of
segments.  A segment may contain the glob character and is then a wildcard
pattern for that level. -/
structure CgroupPath where
  root : String
  path : List String
deriving DecidableEq

/-- Modelled from the spec: one concrete cgroup directory of a fixture
hierarchy, carrying the two raw integers the sampling collaborator exposes
for it (current usage in bytes and the configured protection limit in
bytes).  The real fixture directories are not in the source tree. -/
structure CgroupData where
  path : List String
  usage : ℕ
  protection : ℕ
deriving DecidableEq

/-- Modelled from the spec: a mounted hierarchy is the list of concrete
cgroup directories that currently exist under one root. -/
abbrev Hierarchy := List CgroupData

/-- Modelled from the spec: the filesystem environment maps each existing
root directory to its hierarchy; a root absent from the environment does not
exist or is unreadable. -/
abbrev Env := List (String × Hierarchy)

/-- Fuel-driven glob matcher for a single path segment; the glob character
matches any (possibly empty) run of characters.  The fuel argument makes the
recursion structural so that the kernel can evaluate it. -/
def globAux : ℕ → List Char → List Char → Bool
  | 0, _, _ => false
  | fuel + 1, pat, s =>
    match pat, s with
    | [], [] => true
    | '*' :: ps, [] => globAux fuel ps []
    | '*' :: ps, c :: cs => globAux fuel ps (c :: cs) || globAux fuel ('*' :: ps) cs
    | p :: ps, c :: cs => (p = c) && globAux fuel ps cs
    | _ :: _, [] => false
    | [], _ :: _ => false

/-- Matching of one pattern segment against one concrete segment. -/
def segMatch (pat s : String) : Bool :=
  globAux (pat.data.length + s.data.length + 1) pat.data s.data

/-- Matching of a relative pattern path against a concrete relative path:
same number of segments, each segment matched by `segMatch`. -/
def pathMatch : List String → List String → Bool
  | [], [] => true
  | p :: ps, s :: ss => segMatch p s && pathMatch ps ss
  | _, _ => false

/-- Look a concrete relative path up in a list of cgroup nodes. -/
def findNode (ns : List CgroupData) (p : List String) : Option CgroupData :=
  ns.find? (fun d => decide (d.path = p))

/-- Modelled from the spec: a group's claimed protection is
`min(usage, protectionLimit)` — protection that is not backed by usage
cannot be claimed. -/
def claimed (d : CgroupData) : ℚ :=
  min (d.usage : ℚ) (d.protection : ℚ)

/-- Claimed-protection values of a list of sibling nodes. -/
def claimsOf (l : List CgroupData) : List ℚ := l.map claimed

/-- Immediate children of the group at `par` among the nodes `ns`: the nodes
whose relative path drops its last segment to `par`. -/
def childrenOf (ns : List CgroupData) (par : List String) : List CgroupData :=
  ns.filter (fun d => decide (d.path.dropLast = par) && decide (d.path ≠ []))

/-- Protection consumed by a sibling set in the first, proportional round of
distributing a parent budget: each sibling keeps the smaller of its claimed
protection and its proportional share `budget * c / S` of the budget. -/
def eff1Sum (budget S : ℚ) (cls : List ℚ) : ℚ :=
  (cls.map (fun c => min c (budget * c / S))).sum

/-- Modelled from the spec: the effective protection a child receives when a
parent budget is distributed over a sibling set.  The budget is split
proportionally to claimed protection; budget left unclaimed after that round
is redistributed over the siblings with the same proportional weights; the
result is capped at the child's claimed protection. -/
def shareOf (budget : ℚ) (sibs : List CgroupData) (d : CgroupData) : ℚ :=
  let S := (claimsOf sibs).sum
  let lo := budget - eff1Sum budget S (claimsOf sibs)
  min (claimed d) (budget * claimed d / S + lo * claimed d / S)

/-- Top-down walk assigning each group its effective protection.  The fuel
argument is the length of the path, so the walk is structural; a group whose
immediate parent is among the resolved nodes receives a share of the
parent's effective protection, and a group without a resolved parent is the
root of a discovered subtree and keeps its own claimed protection. -/
def effAux (ns : List CgroupData) : ℕ → List String → ℚ
  | 0, _ => 0
  | _ + 1, [] => 0
  | n + 1, s :: ss =>
    match findNode ns (s :: ss) with
    | none => 0
    | some d =>
      match findNode ns ((s :: ss).dropLast) with
      | some _ =>
          shareOf (effAux ns n ((s :: ss).dropLast)) (childrenOf ns ((s :: ss).dropLast)) d
      | none => claimed d

/-- Effective protection of the group at path `p` within the resolved node
set `ns`. -/
def effectiveProtection (ns : List CgroupData) (p : List String) : ℚ :=
  effAux ns p.length p

/-- Modelled from the spec: the protection overage of a group is the part of
its usage that exceeds its effective protection, floored at zero. -/
def calculateProtectionOverage (ns : List CgroupData) (p : List String) : ℚ :=
  match findNode ns p with
  | none => 0
  | some d => max 0 ((d.usage : ℚ) - effectiveProtection ns p)

/-- Per-group record held by the context store. -/
structure CgroupContext where
  current_usage : ℚ
  average_usage : ℚ
  protection_overage : ℚ
deriving DecidableEq

/-- Error kinds surfaced by the core. -/
inductive CoreError where
  | hierarchyUnavailable
  | brokenHierarchy
deriving DecidableEq

/-- The context store: an association list from resolved cgroup paths to
their per-group records. -/
abbrev OomdContext := List (CgroupPath × CgroupContext)

/-- Record lookup in the store. -/
def getCgroupContext (ctx : OomdContext) (p : CgroupPath) : Option CgroupContext :=
  (ctx.find? (fun e => decide (e.1 = p))).map (·.2)

/-- Store membership test. -/
def hasCgroupContext (ctx : OomdContext) (p : CgroupPath) : Bool :=
  (getCgroupContext ctx p).isSome

/-- Keys currently held by the store. -/
def cgroups (ctx : OomdContext) : List CgroupPath := ctx.map (·.1)

/-- Root-directory lookup in the environment. -/
def lookupRoot (env : Env) (r : String) : Option Hierarchy :=
  (env.find? (fun e => decide (e.1 = r))).map (·.2)

/-- Modelled from the spec: resolving one requested (possibly wildcard)
path.  A missing root is a fatal failure; otherwise the result is the set of
concrete hierarchy paths the pattern matches — a pattern matching nothing
simply contributes no paths. -/
def resolveOne (env : Env) (req : CgroupPath) : Option (List CgroupPath) :=
  match lookupRoot env req.root with
  | none => none
  | some h =>
      some ((h.filter (fun d => pathMatch req.path d.path)).map
        (fun d => CgroupPath.mk req.root d.path))

/-- Resolution of a whole request set; fails as soon as one requested root
is unavailable. -/
def resolveRequests (env : Env) : List CgroupPath → Option (List CgroupPath)
  | [] => some []
  | r :: rest =>
    match resolveOne env r, resolveRequests env rest with
    | some l, some l2 => some (l ++ l2)
    | _, _ => none

/-- Node data of the resolved paths that live under one root; this is the
node set the overage calculator walks for that root. -/
def resolvedNodes (env : Env) (rs : List CgroupPath) (root : String) : List CgroupData :=
  match lookupRoot env root with
  | none => []
  | some h =>
      (rs.dedup.filter (fun p => decide (p.root = root))).filterMap
        (fun p => findNode h p.path)

/-- Modelled from the spec: the exponential smoothing constant, close to
one so that averages respond slowly. -/
def AVERAGE_SIZE_DECAY : ℚ := 99 / 100

/-- Smoothed average currently stored for a path; zero before the first
sample. -/
def oldAverage (ctx : OomdContext) (p : CgroupPath) : ℚ :=
  match getCgroupContext ctx p with
  | some c => c.average_usage
  | none => 0

/-- Modelled from the spec: the fresh per-group record written by one tick
for a resolved path — raw usage, exponentially smoothed average and the
freshly recomputed protection overage. -/
def freshCtx (env : Env) (rs : List CgroupPath) (ctx : OomdContext) (p : CgroupPath) :
    CgroupContext :=
  let ns := resolvedNodes env rs p.root
  match findNode ns p.path with
  | none => ⟨0, 0, 0⟩
  | some d =>
    { current_usage := (d.usage : ℚ)
      average_usage :=
        oldAverage ctx p * AVERAGE_SIZE_DECAY + (d.usage : ℚ) * (1 - AVERAGE_SIZE_DECAY)
      protection_overage := calculateProtectionOverage ns p.path }

/-- Modelled from the spec: one polling tick.  Resolution failure aborts the
tick with `hierarchyUnavailable` and leaves the store untouched; otherwise
every resolved path receives a fresh record and entries that were not
resolved this tick are retained unchanged. -/
def updateContext (env : Env) (reqs : List CgroupPath) (ctx : OomdContext) :
    OomdContext × Option CoreError :=
  match resolveRequests env reqs with
  | none => (ctx, some CoreError.hierarchyUnavailable)
  | some rs =>
      (rs.dedup.map (fun p => (p, freshCtx env rs ctx p)) ++
        ctx.filter (fun e => decide (e.1 ∉ rs.dedup)), none)

/-! ### The fixture hierarchies

Modelled from the spec and the expectations of the test suite: the default
fixture root holds `system.slice` with four services and one slice (only
`service1.service` carries a protection limit) plus `workload.slice` with
one service; the contrived root holds top-level groups `A` (limit `2<<30`)
and `B` (limit `3<<30`) with children `A1`, `A2`, `B1`, `B2`. -/

def kCgroupDataDir : String := "oomd/fixtures/cgroup"

def contrivedRoot : String := "oomd/fixtures/cgroup/protection_overage.fakeroot"

def systemFixture : Hierarchy :=
  [⟨["system.slice"], 5242880, 0⟩,
   ⟨["system.slice", "service1.service"], 1048576, 524288⟩,
   ⟨["system.slice", "service2.service"], 1048576, 0⟩,
   ⟨["system.slice", "service3.service"], 1048576, 0⟩,
   ⟨["system.slice", "service4.service"], 1048576, 0⟩,
   ⟨["system.slice", "slice1.slice"], 1048576, 0⟩,
   ⟨["workload.slice"], 1048576, 0⟩,
   ⟨["workload.slice", "service1.service"], 1048576, 0⟩]

def contrivedFixture : Hierarchy :=
  [⟨["A"], 4294967296, 2147483648⟩,
   ⟨["A", "A1"], 2147483648, 536870912⟩,
   ⟨["A", "A2"], 2147483648, 1610612736⟩,
   ⟨["B"], 6442450944, 3221225472⟩,
   ⟨["B", "B1"], 3221225472, 1073741824⟩,
   ⟨["B", "B2"], 3221225472, 1610612736⟩]

def fsEnv : Env := [(kCgroupDataDir, systemFixture), (contrivedRoot, contrivedFixture)]

def service1 : CgroupPath := ⟨kCgroupDataDir, ["system.slice", "service1.service"]⟩
def service2 : CgroupPath := ⟨kCgroupDataDir, ["system.slice", "service2.service"]⟩
def service3 : CgroupPath := ⟨kCgroupDataDir, ["system.slice", "service3.service"]⟩
def service4 : CgroupPath := ⟨kCgroupDataDir, ["system.slice", "service4.service"]⟩
def slice1 : CgroupPath := ⟨kCgroupDataDir, ["system.slice", "slice1.slice"]⟩
def workload_service1 : CgroupPath := ⟨kCgroupDataDir, ["workload.slice", "service1.service"]⟩

def sysWildcard : CgroupPath := ⟨kCgroupDataDir, ["system.slice", "*"]⟩
def workloadWildcard : CgroupPath := ⟨kCgroupDataDir, ["workload.slice", "*"]⟩
def sliceWildcard : CgroupPath := ⟨kCgroupDataDir, ["*.slice", "*"]⟩
def contrivedChildWildcard : CgroupPath := ⟨contrivedRoot, ["*", "*"]⟩
def contrivedTopWildcard : CgroupPath := ⟨contrivedRoot, ["*"]⟩

/-- Store produced by one tick over the `system.slice/*` request. -/
def sysTick1 : OomdContext := (updateContext fsEnv [sysWildcard] []).1

/-- Store produced by the contrived-fixture request set (child wildcard plus
the manually added top-level wildcard, as in the test). -/
def contrivedTick1 : OomdContext :=
  (updateContext fsEnv [contrivedChildWildcard, contrivedTopWildcard] []).1

/-! ### Helper lemmas on the store machinery -/

theorem find?_pair_map (l : List CgroupPath) (f : CgroupPath → CgroupContext)
    (p : CgroupPath) (hp : p ∈ l) :
    (l.map (fun q => (q, f q))).find? (fun e => decide (e.1 = p)) = some (p, f p) := by
  induction l with
  | nil => cases hp
  | cons q t ih =>
    by_cases hq : q = p
    · subst hq
      simp [List.find?_cons]
    · rw [List.map_cons, List.find?_cons_of_neg, ih (by
        rcases List.mem_cons.mp hp with h | h
        · exact absurd h.symm hq
        · exact h)]
      simpa using hq

theorem find?_append_of_some {α} (l1 l2 : List α) (f : α → Bool) (x : α)
    (h : l1.find? f = some x) : (l1 ++ l2).find? f = some x := by
  induction l1 with
  | nil => simp [List.find?] at h
  | cons a t ih =>
    rw [List.cons_append]
    rw [List.find?_cons] at h ⊢
    cases hfa : f a with
    | true => simpa [hfa] using h
    | false =>
      rw [hfa] at h
      simpa [hfa] using ih h

/-- A path resolved by the tick is stored with exactly the fresh record the
tick computed for it. -/
theorem updateContext_lookup_resolved (env : Env) (reqs : List CgroupPath)
    (ctx : OomdContext) (rs : List CgroupPath) (p : CgroupPath)
    (hrs : resolveRequests env reqs = some rs) (hp : p ∈ rs) :
    getCgroupContext (updateContext env reqs ctx).1 p = some (freshCtx env rs ctx p) := by
  unfold updateContext
  rw [hrs]
  unfold getCgroupContext
  rw [find?_append_of_some _ _ _ _ (find?_pair_map _ _ _ (List.mem_dedup.mpr hp))]
  rfl

theorem freshCtx_eval (env : Env) (rs : List CgroupPath) (ctx : OomdContext)
    (p : CgroupPath) (d : CgroupData)
    (hd : findNode (resolvedNodes env rs p.root) p.path = some d) :
    freshCtx env rs ctx p =
      ⟨(d.usage : ℚ),
       oldAverage ctx p * AVERAGE_SIZE_DECAY + (d.usage : ℚ) * (1 - AVERAGE_SIZE_DECAY),
       calculateProtectionOverage (resolvedNodes env rs p.root) p.path⟩ := by
  unfold freshCtx
  dsimp only []
  rw [hd]

theorem overage_eq (ns : List CgroupData) (p : List String) (d : CgroupData)
    (hd : findNode ns p = some d) :
    calculateProtectionOverage ns p = max 0 ((d.usage : ℚ) - effectiveProtection ns p) := by
  unfold calculateProtectionOverage
  rw [hd]

/-- Unfolding of the effective-protection walk at a subtree root: a group
whose immediate parent is not among the resolved nodes keeps its claimed
protection. -/
theorem effProt_top (ns : List CgroupData) (s : String) (ss : List String) (d : CgroupData)
    (hd : findNode ns (s :: ss) = some d)
    (hpar : findNode ns ((s :: ss).dropLast) = none) :
    effectiveProtection ns (s :: ss) = claimed d := by
  unfold effectiveProtection
  rw [List.length_cons, effAux, hd, hpar]

/-- Unfolding of the effective-protection walk at a child: a group whose
immediate parent is among the resolved nodes receives a share of the
parent's effective protection, distributed over the parent's children. -/
theorem effProt_child (ns : List CgroupData) (s : String) (ss : List String)
    (d e : CgroupData)
    (hd : findNode ns (s :: ss) = some d)
    (hpar : findNode ns ((s :: ss).dropLast) = some e) :
    effectiveProtection ns (s :: ss) =
      shareOf (effectiveProtection ns ((s :: ss).dropLast))
        (childrenOf ns ((s :: ss).dropLast)) d := by
  unfold effectiveProtection
  rw [List.length_cons, effAux, hd, hpar]
  have hlen : ((s :: ss).dropLast).length = ss.length := by
    rw [List.length_dropLast, List.length_cons]
    omega
  rw [hlen]

/-- The concrete resolution of the `system.slice/*` request over the
fixture. -/
def rsSys : List CgroupPath := [service1, service2, service3, service4, slice1]

/-- The node data the overage calculator walks for the `system.slice/*`
tick. -/
def sysNodes : List CgroupData :=
  [⟨["system.slice", "service1.service"], 1048576, 524288⟩,
   ⟨["system.slice", "service2.service"], 1048576, 0⟩,
   ⟨["system.slice", "service3.service"], 1048576, 0⟩,
   ⟨["system.slice", "service4.service"], 1048576, 0⟩,
   ⟨["system.slice", "slice1.slice"], 1048576, 0⟩]

/-! ### Claim theorems -/

/-- Claim C6: resolving the wildcard pattern `system.slice/*` against the
fixture hierarchy (four services and one slice) produces a store with
exactly five entries, and `hasCgroupContext` is true for each of the four
service paths and the slice path. -/
theorem c6_wildcard_resolution_count :
    (cgroups sysTick1).length = 5 ∧
    hasCgroupContext sysTick1 service1 = true ∧
    hasCgroupContext sysTick1 service2 = true ∧
    hasCgroupContext sysTick1 service3 = true ∧
    hasCgroupContext sysTick1 service4 = true ∧
    hasCgroupContext sysTick1 slice1 = true := by
  decide

/-- Claim C7: the two overlapping wildcard request sets
(`system.slice/*` with `workload.slice/*`, and `*.slice/*` with
`workload.slice/*`) each yield the deduplicated union of the matched
concrete groups: exactly six entries, duplicate-free keys, and every one of
the six concrete groups present. -/
theorem c7_overlapping_requests_dedup :
    ((updateContext fsEnv [sysWildcard, workloadWildcard] []).1.length = 6 ∧
     (cgroups (updateContext fsEnv [sysWildcard, workloadWildcard] []).1).Nodup ∧
     hasCgroupContext (updateContext fsEnv [sysWildcard, workloadWildcard] []).1 service1 = true ∧
     hasCgroupContext (updateContext fsEnv [sysWildcard, workloadWildcard] []).1 service2 = true ∧
     hasCgroupContext (updateContext fsEnv [sysWildcard, workloadWildcard] []).1 service3 = true ∧
     hasCgroupContext (updateContext fsEnv [sysWildcard, workloadWildcard] []).1 service4 = true ∧
     hasCgroupContext (updateContext fsEnv [sysWildcard, workloadWildcard] []).1 slice1 = true ∧
     hasCgroupContext (updateContext fsEnv [sysWildcard, workloadWildcard] []).1 workload_service1 = true) ∧
    ((updateContext fsEnv [sliceWildcard, workloadWildcard] []).1.length = 6 ∧
     (cgroups (updateContext fsEnv [sliceWildcard, workloadWildcard] []).1).Nodup ∧
     hasCgroupContext (updateContext fsEnv [sliceWildcard, workloadWildcard] []).1 service1 = true ∧
     hasCgroupContext (updateContext fsEnv [sliceWildcard, workloadWildcard] []).1 service2 = true ∧
     hasCgroupContext (updateContext fsEnv [sliceWildcard, workloadWildcard] []).1 service3 = true ∧
     hasCgroupContext (updateContext fsEnv [sliceWildcard, workloadWildcard] []).1 service4 = true ∧
     hasCgroupContext (updateContext fsEnv [sliceWildcard, workloadWildcard] []).1 slice1 = true ∧
     hasCgroupContext (updateContext fsEnv [sliceWildcard, workloadWildcard] []).1 workload_service1 = true) := by
  decide

/-- Claim C2 counterexample: after a tick requesting only the wildcard leaf
pattern `system.slice/*`, the resolved leaf `system.slice/service1.service`
is stored, its strict ancestor `system.slice` exists in the hierarchy and is
the leaf's immediate parent path, yet the store has no entry for it — the
mapping does not contain every strict ancestor of every resolved leaf. -/
theorem c2_ancestor_not_synthesized_counterexample :
    hasCgroupContext sysTick1 service1 = true ∧
    service1.path.dropLast = ["system.slice"] ∧
    (findNode systemFixture ["system.slice"]).isSome = true ∧
    hasCgroupContext sysTick1 ⟨kCgroupDataDir, ["system.slice"]⟩ = false := by
  decide

theorem mem_resolveOne (env : Env) (r : CgroupPath) (l : List CgroupPath)
    (p : CgroupPath) (hl : resolveOne env r = some l) (hp : p ∈ l) :
    r.root = p.root ∧ pathMatch r.path p.path = true := by
  unfold resolveOne at hl
  cases hroot : lookupRoot env r.root with
  | none => rw [hroot] at hl; cases hl
  | some h =>
    rw [hroot] at hl
    injection hl with hl
    subst hl
    rcases List.mem_map.mp hp with ⟨d, hd, hdp⟩
    rcases List.mem_filter.mp hd with ⟨_, hmatch⟩
    subst hdp
    exact ⟨rfl, hmatch⟩

/-- Claim C2 amended: resolution synthesizes no ancestors — every path in a
successful resolution is textually matched by one of the requested patterns
itself (root equal, relative path matched segmentwise).  Ancestor paths must
be requested explicitly by the caller, which is why the contrived test adds
the top-level wildcard pattern by hand. -/
theorem c2_amended_resolution_is_matches_only (env : Env) (reqs : List CgroupPath)
    (rs : List CgroupPath) (p : CgroupPath)
    (hrs : resolveRequests env reqs = some rs) (hp : p ∈ rs) :
    ∃ req ∈ reqs, req.root = p.root ∧ pathMatch req.path p.path = true := by
  induction reqs generalizing rs with
  | nil =>
    unfold resolveRequests at hrs
    injection hrs with hrs
    subst hrs
    cases hp
  | cons r rest ih =>
    unfold resolveRequests at hrs
    cases h1 : resolveOne env r with
    | none => rw [h1] at hrs; cases hrs
    | some l =>
      cases h2 : resolveRequests env rest with
      | none => rw [h1, h2] at hrs; cases hrs
      | some l2 =>
        rw [h1, h2] at hrs
        injection hrs with hrs
        subst hrs
        rcases List.mem_append.mp hp with h | h
        · exact ⟨r, List.mem_cons_self r rest, mem_resolveOne env r l p h1 h⟩
        · rcases ih l2 h2 h with ⟨req, hreq, hprop⟩
          exact ⟨req, List.mem_cons_of_mem r hreq, hprop⟩

/-- Witness for the amended C2: instantiated on the fixture, the stored
leaf `system.slice/service1.service` is matched by the requested pattern
`system.slice/*` itself. -/
theorem c2_amended_witness :
    ∃ req ∈ [sysWildcard], req.root = service1.root ∧
      pathMatch req.path service1.path = true :=
  c2_amended_resolution_is_matches_only fsEnv [sysWildcard] rsSys service1
    (by decide) (by decide)

theorem resolveRequests_none_of_bad_root (env : Env) (reqs : List CgroupPath)
    (r : CgroupPath) (hr : r ∈ reqs) (hnone : lookupRoot env r.root = none) :
    resolveRequests env reqs = none := by
  induction reqs with
  | nil => cases hr
  | cons q rest ih =>
    unfold resolveRequests
    rcases List.mem_cons.mp hr with h | h
    · subst h
      unfold resolveOne
      rw [hnone]
    · rw [ih h]
      cases resolveOne env q <;> rfl

/-- Claim C9: a tick whose request set names a root that does not exist in
the environment fails with the `hierarchyUnavailable` error kind and
returns the pre-existing store completely unchanged. -/
theorem c9_unavailable_root_leaves_store_unchanged (env : Env)
    (reqs : List CgroupPath) (ctx : OomdContext) (r : CgroupPath)
    (hr : r ∈ reqs) (hnone : lookupRoot env r.root = none) :
    updateContext env reqs ctx = (ctx, some CoreError.hierarchyUnavailable) := by
  unfold updateContext
  rw [resolveRequests_none_of_bad_root env reqs r hr hnone]

/-- Witness for C9: a request against a nonexistent root, issued on top of
a populated store, fails with `hierarchyUnavailable` and hands back that
store as is. -/
theorem c9_witness :
    updateContext fsEnv [⟨"does/not/exist", ["system.slice", "*"]⟩] sysTick1 =
      (sysTick1, some CoreError.hierarchyUnavailable) :=
  c9_unavailable_root_leaves_store_unchanged fsEnv
    [⟨"does/not/exist", ["system.slice", "*"]⟩] sysTick1
    ⟨"does/not/exist", ["system.slice", "*"]⟩ (by decide) (by decide)

/-- Claim C3 counterexample: on the very first observation of
`system.slice/service1.service` the stored average usage is not equal to the
stored current usage — the average is smoothed up from its initial value 0
instead of being seeded with the current usage. -/
theorem c3_first_tick_counterexample :
    (getCgroupContext sysTick1 service1).map (·.average_usage) ≠
      (getCgroupContext sysTick1 service1).map (·.current_usage) := by
  have h1 := updateContext_lookup_resolved fsEnv [sysWildcard] [] rsSys service1
    (by decide) (by decide)
  have h2 := freshCtx_eval fsEnv rsSys []
    service1 ⟨["system.slice", "service1.service"], 1048576, 524288⟩ (by decide)
  unfold sysTick1
  rw [h1, h2]
  have hz : oldAverage [] service1 = 0 := rfl
  rw [hz]
  simp only [Option.map_some]
  intro h
  injection h with h
  norm_num [AVERAGE_SIZE_DECAY] at h

/-- Claim C3 amended: on the first observation of a group (no record in the
store yet) the tick smooths the average up from the initial value 0, storing
`currentUsage * (1 - DECAY)`; every tick, the first included, applies the
same exponential-smoothing formula to the previously stored average. -/
theorem c3_amended_first_observation_smoothed (env : Env) (reqs : List CgroupPath)
    (ctx : OomdContext) (rs : List CgroupPath) (p : CgroupPath) (d : CgroupData)
    (hrs : resolveRequests env reqs = some rs) (hp : p ∈ rs)
    (hd : findNode (resolvedNodes env rs p.root) p.path = some d)
    (hfirst : getCgroupContext ctx p = none) :
    (getCgroupContext (updateContext env reqs ctx).1 p).map (·.average_usage) =
      some ((d.usage : ℚ) * (1 - AVERAGE_SIZE_DECAY)) ∧
    (getCgroupContext (updateContext env reqs ctx).1 p).map (·.average_usage) =
      some (oldAverage ctx p * AVERAGE_SIZE_DECAY + (d.usage : ℚ) * (1 - AVERAGE_SIZE_DECAY)) := by
  rw [updateContext_lookup_resolved env reqs ctx rs p hrs hp, freshCtx_eval env rs ctx p d hd]
  have hz : oldAverage ctx p = 0 := by
    rw [oldAverage, hfirst]
  constructor
  · simp only [Option.map_some, hz]
    norm_num
  · rfl

/-- Witness for the amended C3: on the fixture's first tick the stored
average for `service1` is one hundredth of its current usage. -/
theorem c3_amended_witness :
    (getCgroupContext sysTick1 service1).map (·.average_usage) =
      some ((1048576 : ℚ) * (1 - AVERAGE_SIZE_DECAY)) :=
  (c3_amended_first_observation_smoothed fsEnv [sysWildcard] [] rsSys service1
    ⟨["system.slice", "service1.service"], 1048576, 524288⟩
    (by decide) (by decide) (by decide) (by decide)).1

/-- Claim C4: for a resolved group whose raw usage exceeds its stored
average, one tick strictly increases the average, keeps it strictly below
the raw usage, and contracts the remaining gap by exactly the decay factor —
so at constant raw usage the stored averages increase monotonically toward
the raw value and never overshoot it. -/
theorem c4_average_monotone_convergence (env : Env) (reqs : List CgroupPath)
    (ctx : OomdContext) (rs : List CgroupPath) (p : CgroupPath) (d : CgroupData)
    (hrs : resolveRequests env reqs = some rs) (hp : p ∈ rs)
    (hd : findNode (resolvedNodes env rs p.root) p.path = some d)
    (hlt : oldAverage ctx p < (d.usage : ℚ)) :
    oldAverage ctx p < oldAverage (updateContext env reqs ctx).1 p ∧
    oldAverage (updateContext env reqs ctx).1 p < (d.usage : ℚ) ∧
    (d.usage : ℚ) - oldAverage (updateContext env reqs ctx).1 p =
      AVERAGE_SIZE_DECAY * ((d.usage : ℚ) - oldAverage ctx p) := by
  have hnew : oldAverage (updateContext env reqs ctx).1 p =
      oldAverage ctx p * AVERAGE_SIZE_DECAY + (d.usage : ℚ) * (1 - AVERAGE_SIZE_DECAY) := by
    rw [oldAverage, updateContext_lookup_resolved env reqs ctx rs p hrs hp,
      freshCtx_eval env rs ctx p d hd]
  rw [hnew, AVERAGE_SIZE_DECAY]
  rw [AVERAGE_SIZE_DECAY] at hnew
  refine ⟨?_, ?_, ?_⟩
  · linarith
  · linarith
  · ring

/-- Witness for C4: the first tick over the fixture strictly raises the
average of `service1` from 0 while keeping it below the raw usage, with the
gap contracted by the decay factor. -/
theorem c4_witness :
    oldAverage [] service1 < oldAverage (updateContext fsEnv [sysWildcard] []).1 service1 ∧
    oldAverage (updateContext fsEnv [sysWildcard] []).1 service1 <
      ((CgroupData.mk ["system.slice", "service1.service"] 1048576 524288).usage : ℚ) ∧
    ((CgroupData.mk ["system.slice", "service1.service"] 1048576 524288).usage : ℚ) -
        oldAverage (updateContext fsEnv [sysWildcard] []).1 service1 =
      AVERAGE_SIZE_DECAY *
        (((CgroupData.mk ["system.slice", "service1.service"] 1048576 524288).usage : ℚ) -
          oldAverage [] service1) :=
  c4_average_monotone_convergence fsEnv [sysWildcard] [] rsSys service1
    ⟨["system.slice", "service1.service"], 1048576, 524288⟩
    (by decide) (by decide) (by decide)
    (show (0 : ℚ) < ((1048576 : ℕ) : ℚ) by norm_num)

theorem claimed_eq_zero_of_protection_zero (d : CgroupData) (hprot : d.protection = 0) :
    claimed d = 0 := by
  rw [claimed, hprot]
  exact min_eq_right (by positivity)

theorem shareOf_eq_zero_of_claimed_zero (budget : ℚ) (sibs : List CgroupData)
    (d : CgroupData) (hc : claimed d = 0) : shareOf budget sibs d = 0 := by
  rw [shareOf]
  simp [hc]

theorem effProt_eq_zero_of_protection_zero (ns : List CgroupData) (p : List String)
    (d : CgroupData) (hd : findNode ns p = some d) (hprot : d.protection = 0) :
    effectiveProtection ns p = 0 := by
  have hc := claimed_eq_zero_of_protection_zero d hprot
  cases p with
  | nil => rfl
  | cons s ss =>
    cases hpar : findNode ns ((s :: ss).dropLast) with
    | none => rw [effProt_top ns s ss d hd hpar, hc]
    | some e => rw [effProt_child ns s ss d e hd hpar, shareOf_eq_zero_of_claimed_zero _ _ _ hc]

/-- Claim C8: a resolved group with zero configured protection receives
effective protection zero, and its freshly stored protection overage equals
its usage exactly. -/
theorem c8_zero_protection_overage_is_usage (env : Env) (reqs : List CgroupPath)
    (ctx : OomdContext) (rs : List CgroupPath) (p : CgroupPath) (d : CgroupData)
    (hrs : resolveRequests env reqs = some rs) (hp : p ∈ rs)
    (hd : findNode (resolvedNodes env rs p.root) p.path = some d)
    (hprot : d.protection = 0) (hnz : 0 < d.usage) :
    effectiveProtection (resolvedNodes env rs p.root) p.path = 0 ∧
    (getCgroupContext (updateContext env reqs ctx).1 p).map (·.protection_overage) =
      some ((d.usage : ℚ)) := by
  have heff := effProt_eq_zero_of_protection_zero _ _ _ hd hprot
  refine ⟨heff, ?_⟩
  rw [updateContext_lookup_resolved env reqs ctx rs p hrs hp, freshCtx_eval env rs ctx p d hd]
  simp only [Option.map_some']
  rw [overage_eq _ _ _ hd, heff, sub_zero, max_eq_right (by positivity)]

/-- Witness for C8: `service2` carries no protection, so after the tick its
stored overage is its full usage. -/
theorem c8_witness :
    effectiveProtection (resolvedNodes fsEnv rsSys service2.root) service2.path = 0 ∧
    (getCgroupContext (updateContext fsEnv [sysWildcard] []).1 service2).map
        (·.protection_overage) =
      some (((CgroupData.mk ["system.slice", "service2.service"] 1048576 0).usage : ℚ)) :=
  c8_zero_protection_overage_is_usage fsEnv [sysWildcard] [] rsSys service2
    ⟨["system.slice", "service2.service"], 1048576, 0⟩
    (by decide) (by decide) (by decide) (by decide) (by decide)

theorem tick_overage_eval (env : Env) (reqs : List CgroupPath) (ctx : OomdContext)
    (rs : List CgroupPath) (ns : List CgroupData) (p : CgroupPath) (d : CgroupData)
    (hrs : resolveRequests env reqs = some rs) (hp : p ∈ rs)
    (hns : resolvedNodes env rs p.root = ns) (hd : findNode ns p.path = some d) :
    (getCgroupContext (updateContext env reqs ctx).1 p).map (·.protection_overage) =
      some (calculateProtectionOverage ns p.path) := by
  have hd' : findNode (resolvedNodes env rs p.root) p.path = some d := by
    rw [hns]; exact hd
  rw [updateContext_lookup_resolved env reqs ctx rs p hrs hp, freshCtx_eval env rs ctx p d hd',
    Option.map_some', hns]

theorem overage_eq_usage_of_protection_zero (ns : List CgroupData) (p : List String)
    (d : CgroupData) (hd : findNode ns p = some d) (hprot : d.protection = 0) :
    calculateProtectionOverage ns p = (d.usage : ℚ) := by
  rw [overage_eq _ _ _ hd, effProt_eq_zero_of_protection_zero _ _ _ hd hprot, sub_zero,
    max_eq_right (by positivity)]

theorem shareOf_congr (budget : ℚ) (sibs : List CgroupData) (d1 d2 : CgroupData)
    (hc : claimed d1 = claimed d2) : shareOf budget sibs d1 = shareOf budget sibs d2 := by
  simp only [shareOf, hc]

theorem effProt_congr_of_same_parent (ns : List CgroupData) (p1 p2 : List String)
    (d1 d2 : CgroupData) (h1 : p1 ≠ []) (h2 : p2 ≠ [])
    (hdrop : p1.dropLast = p2.dropLast)
    (hd1 : findNode ns p1 = some d1) (hd2 : findNode ns p2 = some d2)
    (hc : claimed d1 = claimed d2) :
    effectiveProtection ns p1 = effectiveProtection ns p2 := by
  cases p1 with
  | nil => exact absurd rfl h1
  | cons s1 ss1 =>
    cases p2 with
    | nil => exact absurd rfl h2
    | cons s2 ss2 =>
      cases hpar : findNode ns ((s1 :: ss1).dropLast) with
      | none =>
        rw [effProt_top ns s1 ss1 d1 hd1 hpar,
          effProt_top ns s2 ss2 d2 hd2 (by rw [← hdrop]; exact hpar), hc]
      | some e =>
        rw [effProt_child ns s1 ss1 d1 e hd1 hpar,
          effProt_child ns s2 ss2 d2 e hd2 (by rw [← hdrop]; exact hpar), hdrop,
          shareOf_congr _ _ _ _ hc]

/-- Claim C10: two sibling groups with identical usage and identical
protection under the same parent path receive exactly equal protection
overages — the computation depends only on the data and the tree position,
not on the group's name or its position in the node list; concretely, in the
`system.slice` fixture, `service2`, `service3`, `service4` and `slice1` all
store the same overage, strictly greater than the overage of `service1`. -/
theorem c10_identical_siblings_equal_overage (ns : List CgroupData)
    (p1 p2 : List String) (d1 d2 : CgroupData) (h1 : p1 ≠ []) (h2 : p2 ≠ [])
    (hdrop : p1.dropLast = p2.dropLast)
    (hd1 : findNode ns p1 = some d1) (hd2 : findNode ns p2 = some d2)
    (hu : d1.usage = d2.usage) (hpr : d1.protection = d2.protection) :
    calculateProtectionOverage ns p1 = calculateProtectionOverage ns p2 ∧
    ((getCgroupContext sysTick1 service1).map (·.protection_overage) = some ((524288 : ℚ)) ∧
     (getCgroupContext sysTick1 service2).map (·.protection_overage) = some ((1048576 : ℚ)) ∧
     (getCgroupContext sysTick1 service3).map (·.protection_overage) = some ((1048576 : ℚ)) ∧
     (getCgroupContext sysTick1 service4).map (·.protection_overage) = some ((1048576 : ℚ)) ∧
     (getCgroupContext sysTick1 slice1).map (·.protection_overage) = some ((1048576 : ℚ)) ∧
     (524288 : ℚ) < 1048576) := by
  constructor
  · have hc : claimed d1 = claimed d2 := by
      rw [claimed, claimed, hu, hpr]
    rw [overage_eq _ _ _ hd1, overage_eq _ _ _ hd2, hu,
      effProt_congr_of_same_parent ns p1 p2 d1 d2 h1 h2 hdrop hd1 hd2 hc]
  · refine ⟨?_, ?_, ?_, ?_, ?_, by norm_num⟩
    · have hover : calculateProtectionOverage sysNodes ["system.slice", "service1.service"] =
          524288 := by
        rw [overage_eq sysNodes ["system.slice", "service1.service"]
            ⟨["system.slice", "service1.service"], 1048576, 524288⟩ (by decide),
          effProt_top sysNodes "system.slice" ["service1.service"]
            ⟨["system.slice", "service1.service"], 1048576, 524288⟩ (by decide) (by decide),
          claimed, min_def]
        norm_num
      rw [show sysTick1 = (updateContext fsEnv [sysWildcard] []).1 from rfl,
        tick_overage_eval fsEnv [sysWildcard] [] rsSys sysNodes service1
          ⟨["system.slice", "service1.service"], 1048576, 524288⟩
          (by decide) (by decide) (by decide) (by decide),
        show service1.path = ["system.slice", "service1.service"] from rfl, hover]
    · rw [show sysTick1 = (updateContext fsEnv [sysWildcard] []).1 from rfl,
        tick_overage_eval fsEnv [sysWildcard] [] rsSys sysNodes service2
          ⟨["system.slice", "service2.service"], 1048576, 0⟩
          (by decide) (by decide) (by decide) (by decide),
        overage_eq_usage_of_protection_zero sysNodes service2.path
          ⟨["system.slice", "service2.service"], 1048576, 0⟩ (by decide) (by decide)]
      norm_num
    · rw [show sysTick1 = (updateContext fsEnv [sysWildcard] []).1 from rfl,
        tick_overage_eval fsEnv [sysWildcard] [] rsSys sysNodes service3
          ⟨["system.slice", "service3.service"], 1048576, 0⟩
          (by decide) (by decide) (by decide) (by decide),
        overage_eq_usage_of_protection_zero sysNodes service3.path
          ⟨["system.slice", "service3.service"], 1048576, 0⟩ (by decide) (by decide)]
      norm_num
    · rw [show sysTick1 = (updateContext fsEnv [sysWildcard] []).1 from rfl,
        tick_overage_eval fsEnv [sysWildcard] [] rsSys sysNodes service4
          ⟨["system.slice", "service4.service"], 1048576, 0⟩
          (by decide) (by decide) (by decide) (by decide),
        overage_eq_usage_of_protection_zero sysNodes service4.path
          ⟨["system.slice", "service4.service"], 1048576, 0⟩ (by decide) (by decide)]
      norm_num
    · rw [show sysTick1 = (updateContext fsEnv [sysWildcard] []).1 from rfl,
        tick_overage_eval fsEnv [sysWildcard] [] rsSys sysNodes slice1
          ⟨["system.slice", "slice1.slice"], 1048576, 0⟩
          (by decide) (by decide) (by decide) (by decide),
        overage_eq_usage_of_protection_zero sysNodes slice1.path
          ⟨["system.slice", "slice1.slice"], 1048576, 0⟩ (by decide) (by decide)]
      norm_num

/-- Witness for C10: `service2` and `service3` carry identical data under
the same parent and indeed receive equal overage. -/
theorem c10_witness :
    calculateProtectionOverage sysNodes ["system.slice", "service2.service"] =
      calculateProtectionOverage sysNodes ["system.slice", "service3.service"] ∧
    ((getCgroupContext sysTick1 service1).map (·.protection_overage) = some ((524288 : ℚ)) ∧
     (getCgroupContext sysTick1 service2).map (·.protection_overage) = some ((1048576 : ℚ)) ∧
     (getCgroupContext sysTick1 service3).map (·.protection_overage) = some ((1048576 : ℚ)) ∧
     (getCgroupContext sysTick1 service4).map (·.protection_overage) = some ((1048576 : ℚ)) ∧
     (getCgroupContext sysTick1 slice1).map (·.protection_overage) = some ((1048576 : ℚ)) ∧
     (524288 : ℚ) < 1048576) :=
  c10_identical_siblings_equal_overage sysNodes
    ["system.slice", "service2.service"] ["system.slice", "service3.service"]
    ⟨["system.slice", "service2.service"], 1048576, 0⟩
    ⟨["system.slice", "service3.service"], 1048576, 0⟩
    (by decide) (by decide) (by decide) (by decide) (by decide) (by decide) (by decide)

def cpA : CgroupPath := ⟨contrivedRoot, ["A"]⟩
def cpA1 : CgroupPath := ⟨contrivedRoot, ["A", "A1"]⟩
def cpA2 : CgroupPath := ⟨contrivedRoot, ["A", "A2"]⟩
def cpB : CgroupPath := ⟨contrivedRoot, ["B"]⟩
def cpB1 : CgroupPath := ⟨contrivedRoot, ["B", "B1"]⟩
def cpB2 : CgroupPath := ⟨contrivedRoot, ["B", "B2"]⟩

/-- The concrete resolution of the contrived request set. -/
def rsContrived : List CgroupPath := [cpA1, cpA2, cpB1, cpB2, cpA, cpB]

/-- The node data the overage calculator walks for the contrived tick. -/
def contrivedNodes : List CgroupData :=
  [⟨["A", "A1"], 2147483648, 536870912⟩,
   ⟨["A", "A2"], 2147483648, 1610612736⟩,
   ⟨["B", "B1"], 3221225472, 1073741824⟩,
   ⟨["B", "B2"], 3221225472, 1610612736⟩,
   ⟨["A"], 4294967296, 2147483648⟩,
   ⟨["B"], 6442450944, 3221225472⟩]

theorem effA_eval : effectiveProtection contrivedNodes ["A"] = 2147483648 := by
  rw [effProt_top contrivedNodes "A" [] ⟨["A"], 4294967296, 2147483648⟩
    (by decide) (by decide), claimed, min_def]
  norm_num

theorem effB_eval : effectiveProtection contrivedNodes ["B"] = 3221225472 := by
  rw [effProt_top contrivedNodes "B" [] ⟨["B"], 6442450944, 3221225472⟩
    (by decide) (by decide), claimed, min_def]
  norm_num

theorem effA1_eval : effectiveProtection contrivedNodes ["A", "A1"] = 536870912 := by
  rw [effProt_child contrivedNodes "A" ["A1"] ⟨["A", "A1"], 2147483648, 536870912⟩
    ⟨["A"], 4294967296, 2147483648⟩ (by decide) (by decide),
    show (["A", "A1"] : List String).dropLast = ["A"] from rfl, effA_eval,
    show childrenOf contrivedNodes ["A"] =
      [⟨["A", "A1"], 2147483648, 536870912⟩, ⟨["A", "A2"], 2147483648, 1610612736⟩] from
        by decide]
  norm_num [shareOf, claimsOf, claimed, eff1Sum, List.map_cons, List.map_nil,
    List.sum_cons, List.sum_nil, min_def]

theorem effA2_eval : effectiveProtection contrivedNodes ["A", "A2"] = 1610612736 := by
  rw [effProt_child contrivedNodes "A" ["A2"] ⟨["A", "A2"], 2147483648, 1610612736⟩
    ⟨["A"], 4294967296, 2147483648⟩ (by decide) (by decide),
    show (["A", "A2"] : List String).dropLast = ["A"] from rfl, effA_eval,
    show childrenOf contrivedNodes ["A"] =
      [⟨["A", "A1"], 2147483648, 536870912⟩, ⟨["A", "A2"], 2147483648, 1610612736⟩] from
        by decide]
  norm_num [shareOf, claimsOf, claimed, eff1Sum, List.map_cons, List.map_nil,
    List.sum_cons, List.sum_nil, min_def]

theorem effB1_eval : effectiveProtection contrivedNodes ["B", "B1"] = 1073741824 := by
  rw [effProt_child contrivedNodes "B" ["B1"] ⟨["B", "B1"], 3221225472, 1073741824⟩
    ⟨["B"], 6442450944, 3221225472⟩ (by decide) (by decide),
    show (["B", "B1"] : List String).dropLast = ["B"] from rfl, effB_eval,
    show childrenOf contrivedNodes ["B"] =
      [⟨["B", "B1"], 3221225472, 1073741824⟩, ⟨["B", "B2"], 3221225472, 1610612736⟩] from
        by decide]
  norm_num [shareOf, claimsOf, claimed, eff1Sum, List.map_cons, List.map_nil,
    List.sum_cons, List.sum_nil, min_def]

theorem effB2_eval : effectiveProtection contrivedNodes ["B", "B2"] = 1610612736 := by
  rw [effProt_child contrivedNodes "B" ["B2"] ⟨["B", "B2"], 3221225472, 1610612736⟩
    ⟨["B"], 6442450944, 3221225472⟩ (by decide) (by decide),
    show (["B", "B2"] : List String).dropLast = ["B"] from rfl, effB_eval,
    show childrenOf contrivedNodes ["B"] =
      [⟨["B", "B1"], 3221225472, 1073741824⟩, ⟨["B", "B2"], 3221225472, 1610612736⟩] from
        by decide]
  norm_num [shareOf, claimsOf, claimed, eff1Sum, List.map_cons, List.map_nil,
    List.sum_cons, List.sum_nil, min_def]

/-- Claim C1: after the tick over the contrived fixture (top-level `A` with
protection limit `2<<30`, `B` with `3<<30`, children `A1`/`A2` and
`B1`/`B2`), the stored protection overage of `A` is exactly `2<<30`
(2147483648) and of `B` exactly `3<<30` (3221225472), and the children's
overages order as `B1 > B2 ≥ A1 > A2` (with `B2 = A1`). -/
theorem c1_contrived_fixture_overages :
    (getCgroupContext contrivedTick1 cpA).map (·.protection_overage) = some ((2147483648 : ℚ)) ∧
    (getCgroupContext contrivedTick1 cpB).map (·.protection_overage) = some ((3221225472 : ℚ)) ∧
    (getCgroupContext contrivedTick1 cpA1).map (·.protection_overage) = some ((1610612736 : ℚ)) ∧
    (getCgroupContext contrivedTick1 cpA2).map (·.protection_overage) = some ((536870912 : ℚ)) ∧
    (getCgroupContext contrivedTick1 cpB1).map (·.protection_overage) = some ((2147483648 : ℚ)) ∧
    (getCgroupContext contrivedTick1 cpB2).map (·.protection_overage) = some ((1610612736 : ℚ)) ∧
    (536870912 : ℚ) < 1610612736 ∧ (1610612736 : ℚ) < 2147483648 := by
  have hbase : contrivedTick1 =
      (updateContext fsEnv [contrivedChildWildcard, contrivedTopWildcard] []).1 := rfl
  refine ⟨?_, ?_, ?_, ?_, ?_, ?_, by norm_num, by norm_num⟩
  · rw [hbase, tick_overage_eval fsEnv [contrivedChildWildcard, contrivedTopWildcard] []
      rsContrived contrivedNodes cpA ⟨["A"], 4294967296, 2147483648⟩
      (by decide) (by decide) (by decide) (by decide),
      overage_eq contrivedNodes cpA.path ⟨["A"], 4294967296, 2147483648⟩ (by decide),
      show cpA.path = ["A"] from rfl, effA_eval]
    norm_num
  · rw [hbase, tick_overage_eval fsEnv [contrivedChildWildcard, contrivedTopWildcard] []
      rsContrived contrivedNodes cpB ⟨["B"], 6442450944, 3221225472⟩
      (by decide) (by decide) (by decide) (by decide),
      overage_eq contrivedNodes cpB.path ⟨["B"], 6442450944, 3221225472⟩ (by decide),
      show cpB.path = ["B"] from rfl, effB_eval]
    norm_num
  · rw [hbase, tick_overage_eval fsEnv [contrivedChildWildcard, contrivedTopWildcard] []
      rsContrived contrivedNodes cpA1 ⟨["A", "A1"], 2147483648, 536870912⟩
      (by decide) (by decide) (by decide) (by decide),
      overage_eq contrivedNodes cpA1.path ⟨["A", "A1"], 2147483648, 536870912⟩ (by decide),
      show cpA1.path = ["A", "A1"] from rfl, effA1_eval]
    norm_num
  · rw [hbase, tick_overage_eval fsEnv [contrivedChildWildcard, contrivedTopWildcard] []
      rsContrived contrivedNodes cpA2 ⟨["A", "A2"], 2147483648, 1610612736⟩
      (by decide) (by decide) (by decide) (by decide),
      overage_eq contrivedNodes cpA2.path ⟨["A", "A2"], 2147483648, 1610612736⟩ (by decide),
      show cpA2.path = ["A", "A2"] from rfl, effA2_eval]
    norm_num
  · rw [hbase, tick_overage_eval fsEnv [contrivedChildWildcard, contrivedTopWildcard] []
      rsContrived contrivedNodes cpB1 ⟨["B", "B1"], 3221225472, 1073741824⟩
      (by decide) (by decide) (by decide) (by decide),
      overage_eq contrivedNodes cpB1.path ⟨["B", "B1"], 3221225472, 1073741824⟩ (by decide),
      show cpB1.path = ["B", "B1"] from rfl, effB1_eval]
    norm_num
  · rw [hbase, tick_overage_eval fsEnv [contrivedChildWildcard, contrivedTopWildcard] []
      rsContrived contrivedNodes cpB2 ⟨["B", "B2"], 3221225472, 1610612736⟩
      (by decide) (by decide) (by decide) (by decide),
      overage_eq contrivedNodes cpB2.path ⟨["B", "B2"], 3221225472, 1610612736⟩ (by decide),
      show cpB2.path = ["B", "B2"] from rfl, effB2_eval]
    norm_num

/-! ### Monotonicity of the distribution in the parent budget (for C5) -/

theorem claimed_nonneg (d : CgroupData) : 0 ≤ claimed d :=
  le_min (Nat.cast_nonneg _) (Nat.cast_nonneg _)

theorem claimsOf_sum_nonneg (l : List CgroupData) : 0 ≤ (claimsOf l).sum := by
  apply List.sum_nonneg
  intro x hx
  rcases List.mem_map.mp hx with ⟨d, _, rfl⟩
  exact claimed_nonneg d

theorem min_add_le (c x δ : ℚ) (hδ : 0 ≤ δ) : min c (x + δ) ≤ min c x + δ := by
  calc min c (x + δ) ≤ min (c + δ) (x + δ) :=
        min_le_min (le_add_of_nonneg_right hδ) le_rfl
    _ = min c x + δ := min_add_add_right c x δ

theorem eff1Sum_sub_le (b b' S : ℚ) (cls : List ℚ) (hb : b ≤ b') (hS : 0 ≤ S)
    (hcl : ∀ c ∈ cls, 0 ≤ c) :
    eff1Sum b' S cls ≤ eff1Sum b S cls + (b' - b) * cls.sum / S := by
  induction cls with
  | nil => simp [eff1Sum]
  | cons c t ih =>
    have hc : 0 ≤ c := hcl c (List.mem_cons_self c t)
    have ht : ∀ x ∈ t, 0 ≤ x := fun x hx => hcl x (List.mem_cons_of_mem c hx)
    have hδ : 0 ≤ (b' - b) * c / S :=
      div_nonneg (mul_nonneg (by linarith) hc) hS
    have hhead : min c (b' * c / S) ≤ min c (b * c / S) + (b' - b) * c / S := by
      have hrw : b' * c / S = b * c / S + (b' - b) * c / S := by ring
      rw [hrw]
      exact min_add_le c (b * c / S) ((b' - b) * c / S) hδ
    have htail := ih ht
    simp only [eff1Sum, List.map_cons, List.sum_cons] at htail ⊢
    have hsplit : (b' - b) * (c + t.sum) / S = (b' - b) * c / S + (b' - b) * t.sum / S := by
      ring
    rw [hsplit]
    linarith

theorem two_b_sub_eff1Sum_mono (b b' : ℚ) (sibs : List CgroupData) (hb : b ≤ b') :
    2 * b - eff1Sum b ((claimsOf sibs).sum) (claimsOf sibs) ≤
      2 * b' - eff1Sum b' ((claimsOf sibs).sum) (claimsOf sibs) := by
  have hS : 0 ≤ (claimsOf sibs).sum := claimsOf_sum_nonneg sibs
  have hcl : ∀ c ∈ claimsOf sibs, 0 ≤ c := by
    intro c hc
    rcases List.mem_map.mp hc with ⟨d, _, rfl⟩
    exact claimed_nonneg d
  have h1 := eff1Sum_sub_le b b' ((claimsOf sibs).sum) (claimsOf sibs) hb hS hcl
  have h2 : (b' - b) * (claimsOf sibs).sum / (claimsOf sibs).sum ≤ b' - b := by
    rcases eq_or_lt_of_le hS with h | h
    · rw [← h]
      simp only [mul_zero, zero_div]
      linarith
    · rw [mul_div_assoc, div_self (ne_of_gt h), mul_one]
  linarith

/-- The share a fixed child receives is monotone in the parent budget. -/
theorem shareOf_mono (b b' : ℚ) (sibs : List CgroupData) (d : CgroupData)
    (hb : b ≤ b') : shareOf b sibs d ≤ shareOf b' sibs d := by
  have hcd : 0 ≤ claimed d := claimed_nonneg d
  have hS : 0 ≤ (claimsOf sibs).sum := claimsOf_sum_nonneg sibs
  simp only [shareOf]
  have hcomb : ∀ x : ℚ,
      x * claimed d / (claimsOf sibs).sum +
        (x - eff1Sum x ((claimsOf sibs).sum) (claimsOf sibs)) * claimed d / (claimsOf sibs).sum =
      (2 * x - eff1Sum x ((claimsOf sibs).sum) (claimsOf sibs)) *
        (claimed d / (claimsOf sibs).sum) := by
    intro x
    ring
  rw [hcomb b, hcomb b']
  exact min_le_min le_rfl
    (mul_le_mul_of_nonneg_right (two_b_sub_eff1Sum_mono b b' sibs hb) (div_nonneg hcd hS))

theorem shareOf_congr2 (b : ℚ) (sibs1 sibs2 : List CgroupData) (d1 d2 : CgroupData)
    (hcl : claimsOf sibs1 = claimsOf sibs2) (hc : claimed d1 = claimed d2) :
    shareOf b sibs1 d1 = shareOf b sibs2 d2 := by
  simp only [shareOf, hcl, hc]

theorem mem_of_map_eq {α β : Type} (f : α → β) (l1 l2 : List α)
    (h : l1.map f = l2.map f) (x : α) (hx : x ∈ l1) : ∃ y ∈ l2, f x = f y := by
  induction l1 generalizing l2 with
  | nil => cases hx
  | cons a t ih =>
    cases l2 with
    | nil => simp at h
    | cons a2 t2 =>
      simp only [List.map_cons, List.cons.injEq] at h
      rcases List.mem_cons.mp hx with rfl | hx2
      · exact ⟨a2, List.mem_cons_self a2 t2, h.1⟩
      · rcases ih t2 h.2 hx2 with ⟨y, hy, hfy⟩
        exact ⟨y, List.mem_cons_of_mem a2 hy, hfy⟩

theorem findNode_of_nodup (ns : List CgroupData) (hnodup : (ns.map (·.path)).Nodup)
    (d : CgroupData) (hd : d ∈ ns) : findNode ns d.path = some d := by
  induction ns with
  | nil => cases hd
  | cons e t ih =>
    rw [List.map_cons, List.nodup_cons] at hnodup
    rcases List.mem_cons.mp hd with rfl | hdt
    · unfold findNode
      exact List.find?_cons_of_pos _ (by simp)
    · have hne : e.path ≠ d.path := by
        intro heq
        exact hnodup.1 (heq ▸ List.mem_map_of_mem (·.path) hdt)
      unfold findNode
      rw [List.find?_cons_of_neg _ (by simpa using hne)]
      exact ih hnodup.2 hdt

theorem mem_childrenOf (ns : List CgroupData) (par : List String) (d : CgroupData)
    (hd : d ∈ childrenOf ns par) : d ∈ ns ∧ d.path.dropLast = par ∧ d.path ≠ [] := by
  rcases List.mem_filter.mp hd with ⟨h1, h2⟩
  simp only [Bool.and_eq_true, decide_eq_true_eq] at h2
  exact ⟨h1, h2.1, h2.2⟩

/-- Claim C5: for two independent top-level groups with the same usage, the
one with the smaller protection limit has the smaller effective budget, and
when the two sibling sets carry identical usage/protection data, no child of
the lower-budget parent has a smaller protection overage than some child —
in particular the best-off child — of the higher-budget parent: overage is
monotone in the available protection budget. -/
theorem c5_overage_monotone_in_protection_budget (ns : List CgroupData)
    (a b : String) (dA dB : CgroupData)
    (hnodup : (ns.map (·.path)).Nodup)
    (hdA : findNode ns [a] = some dA) (hdB : findNode ns [b] = some dB)
    (hroot : findNode ns ([] : List String) = none)
    (husage : dA.usage = dB.usage) (hprot : dA.protection ≤ dB.protection)
    (hch : (childrenOf ns [a]).map (fun d => (d.usage, d.protection)) =
           (childrenOf ns [b]).map (fun d => (d.usage, d.protection))) :
    ∀ cA ∈ childrenOf ns [a], ∃ cB ∈ childrenOf ns [b],
      calculateProtectionOverage ns cB.path ≤ calculateProtectionOverage ns cA.path := by
  intro cA hcA
  obtain ⟨cB, hcB, hpay⟩ :=
    mem_of_map_eq (fun d => (d.usage, d.protection)) _ _ hch cA hcA
  obtain ⟨hAmem, hAdrop, hAne⟩ := mem_childrenOf ns [a] cA hcA
  obtain ⟨hBmem, hBdrop, hBne⟩ := mem_childrenOf ns [b] cB hcB
  have hfA := findNode_of_nodup ns hnodup cA hAmem
  have hfB := findNode_of_nodup ns hnodup cB hBmem
  have hu1 : cA.usage = cB.usage := congrArg Prod.fst hpay
  have hu2 : cA.protection = cB.protection := congrArg Prod.snd hpay
  have hcc : claimed cA = claimed cB := by rw [claimed, claimed, hu1, hu2]
  have hmapclaim : ∀ l : List CgroupData,
      claimsOf l = (l.map (fun d => (d.usage, d.protection))).map
        (fun q : ℕ × ℕ => min ((q.1 : ℚ)) ((q.2 : ℚ))) := by
    intro l
    rw [List.map_map]
    rfl
  have hclaims : claimsOf (childrenOf ns [a]) = claimsOf (childrenOf ns [b]) := by
    rw [hmapclaim (childrenOf ns [a]), hmapclaim (childrenOf ns [b]), hch]
  have hEa : effectiveProtection ns [a] = claimed dA := effProt_top ns a [] dA hdA hroot
  have hEb : effectiveProtection ns [b] = claimed dB := effProt_top ns b [] dB hdB hroot
  have heffA : effectiveProtection ns cA.path = shareOf (claimed dA) (childrenOf ns [a]) cA := by
    cases hp : cA.path with
    | nil => exact absurd hp hAne
    | cons s ss =>
      have hdrop : (s :: ss).dropLast = [a] := by rw [← hp]; exact hAdrop
      rw [effProt_child ns s ss cA dA (by rw [← hp]; exact hfA) (by rw [hdrop]; exact hdA),
        hdrop, hEa]
  have heffB : effectiveProtection ns cB.path = shareOf (claimed dB) (childrenOf ns [b]) cB := by
    cases hp : cB.path with
    | nil => exact absurd hp hBne
    | cons s ss =>
      have hdrop : (s :: ss).dropLast = [b] := by rw [← hp]; exact hBdrop
      rw [effProt_child ns s ss cB dB (by rw [← hp]; exact hfB) (by rw [hdrop]; exact hdB),
        hdrop, hEb]
  have hE : claimed dA ≤ claimed dB := by
    rw [claimed, claimed, husage]
    exact min_le_min le_rfl (Nat.cast_le.mpr hprot)
  have hshare : shareOf (claimed dA) (childrenOf ns [a]) cA ≤
      shareOf (claimed dB) (childrenOf ns [b]) cB := by
    calc shareOf (claimed dA) (childrenOf ns [a]) cA
        ≤ shareOf (claimed dB) (childrenOf ns [a]) cA := shareOf_mono _ _ _ _ hE
      _ = shareOf (claimed dB) (childrenOf ns [b]) cB := shareOf_congr2 _ _ _ _ _ hclaims hcc
  refine ⟨cB, hcB, ?_⟩
  rw [overage_eq ns cA.path cA hfA, overage_eq ns cB.path cB hfB, heffA, heffB]
  exact max_le_max le_rfl (sub_le_sub (le_of_eq (by rw [hu1])) hshare)

/-- A small two-parent forest with identical children data under both
parents; the first parent carries the smaller protection limit. -/
def twoParentNodes : List CgroupData :=
  [⟨["parent1"], 10, 2⟩, ⟨["parent2"], 10, 4⟩,
   ⟨["parent1", "c1"], 5, 3⟩, ⟨["parent1", "c2"], 5, 1⟩,
   ⟨["parent2", "c1"], 5, 3⟩, ⟨["parent2", "c2"], 5, 1⟩]

/-- Witness for C5: in the two-parent forest, the first child of the
lower-budget parent dominates the overage of some child of the
higher-budget parent. -/
theorem c5_witness :
    ∃ cB ∈ childrenOf twoParentNodes ["parent2"],
      calculateProtectionOverage twoParentNodes cB.path ≤
        calculateProtectionOverage twoParentNodes
          (CgroupData.mk ["parent1", "c1"] 5 3).path :=
  c5_overage_monotone_in_protection_budget twoParentNodes "parent1" "parent2"
    ⟨["parent1"], 10, 2⟩ ⟨["parent2"], 10, 4⟩
    (by decide) (by decide) (by decide) (by decide) (by decide) (by decide) (by decide)
    ⟨["parent1", "c1"], 5, 3⟩ (by decide)
